import Mathlib

/-!
Shallow embedding of `engine/src/conversion/analysis/pod/byvalue_checker.rs`
(the `ByValueChecker` type and its operations), together with the pieces of
`engine/src/conversion/api.rs` that feed it.  The mutable
`HashMap<TypeName, StructDetails>` of the checker is modelled as an
association list mutated by explicit state passing; `satisfy_requests`
(whose `while` loop need not terminate) is modelled with explicit fuel.
-/

set_option maxHeartbeats 1000000

namespace Autocxx

/-- Modelled from the spec: `TypeName` (from `types.rs`, which is not among the
sources here) is the canonical identity of a declared type, an ordered sequence
of namespace segments plus a final name, equal iff the full qualified paths
match exactly. -/
structure TypeName where
  ns : List String
  name : String
deriving DecidableEq

/-- Modelled from the spec: a namespace is the ordered sequence of segments
(`Namespace` from `types.rs`, not among the sources here). -/
structure Namespace where
  segments : List String
deriving DecidableEq

/-- Modelled from the spec: `TypeName::new(ns, id)` builds the identifier for
`id` inside namespace `ns`. -/
def TypeName.new (ns : Namespace) (id : String) : TypeName :=
  ⟨ns.segments, id⟩

/-- Modelled from the spec: the display form of a `TypeName` is its fully
qualified path.  Only used inside diagnostic strings. -/
def TypeName.display (t : TypeName) : String :=
  String.intercalate "::" (t.ns ++ [t.name])

/-- The `PodState` enum of `byvalue_checker.rs`. -/
inductive PodState where
  | UnsafeToBePod (reason : String)
  | SafeToBePod
  | IsPod
  | IsAlias (target : TypeName)
deriving DecidableEq

/-- True exactly on the `IsAlias` variant. -/
def PodState.is_alias_state : PodState → Bool
  | .IsAlias _ => true
  | _ => false

/-- True exactly on the `SafeToBePod` variant. -/
def PodState.is_safe_state : PodState → Bool
  | .SafeToBePod => true
  | _ => false

/-- The `StructDetails` struct of `byvalue_checker.rs`. -/
structure StructDetails where
  state : PodState
  dependent_structs : List TypeName
deriving DecidableEq

/-- The `results` map of `ByValueChecker`, a `HashMap<TypeName, StructDetails>`
modelled as an association list in which the most recent insertion shadows
older entries for the same key. -/
abbrev Store := List (TypeName × StructDetails)

/-- `HashMap::get`: the value of the most recently inserted entry for `t`. -/
def Store.lookup : Store → TypeName → Option StructDetails
  | [], _ => none
  | e :: rest, t => if e.1 = t then some e.2 else Store.lookup rest t

/-- `HashMap::insert`: overwrite (shadow) any existing entry for `t`. -/
def Store.insert (st : Store) (t : TypeName) (d : StructDetails) : Store :=
  (t, d) :: st

/-- In-place mutation `results.get_mut(&t).unwrap().state = s` of the record
for `t`, leaving its `dependent_structs` unchanged. -/
def Store.setState : Store → TypeName → PodState → Store
  | [], _, _ => []
  | e :: rest, t, s =>
    (if e.1 = t then (e.1, ⟨s, e.2.dependent_structs⟩) else e) :: Store.setState rest t s

/-- Diagnostic from `ingest_struct`: a dependent type has no record. -/
def msg_not_known (t f : TypeName) : String :=
  "Type " ++ t.display ++ " could not be POD because its dependent type " ++
    f.display ++ " isn\x27t known"

/-- Diagnostic from `ingest_struct`: a dependent type is itself unsafe; the
inner reason is nested after `Because:`. -/
def msg_not_safe (t f : TypeName) (reason : String) : String :=
  "Type " ++ t.display ++ " could not be POD because its dependent type " ++
    f.display ++ " isn\x27t safe to be POD. Because: " ++ reason

/-- Diagnostic from `ingest_struct`: the struct has virtual functions. -/
def msg_virtual (t : TypeName) : String :=
  "Type " ++ t.display ++ " could not be POD because it has virtual functions."

/-- Diagnostic from `satisfy_requests`: no record was ever made for `t`. -/
def msg_never_saw (t : TypeName) : String :=
  "Unable to make " ++ t.display ++ " POD because we never saw a struct definition"

/-- Diagnostic from `ByValueChecker::new`: a known type seeded as unsafe. -/
def msg_not_pod_safe (t : TypeName) : String :=
  "type " ++ t.display ++ " is not safe for POD"

/-- Diagnostic from `new_from_apis`: a blocklisted type. -/
def msg_blocklist (t : TypeName) : String :=
  "type " ++ t.display ++ " is on the blocklist"

/-- Diagnostic from `ingest_nonpod_type`: a typedef to a complex type. -/
def msg_complex (t : TypeName) : String :=
  "Type " ++ t.display ++ " is a typedef to a complex type"

/-- The syntactic shapes of a `syn::Type` that matter to the checker: the code
only ever distinguishes `Type::Path` from every other shape, so the remaining
variants carry no payload. -/
inductive RsType where
  | Path (tn : TypeName)
  | Array
  | Ptr
  | Reference
  | Tuple
  | Other
deriving DecidableEq

/-- True exactly on the `Path` shape. -/
def RsType.is_path : RsType → Bool
  | .Path _ => true
  | _ => false

/-- A `syn::Field`: an optional identifier (tuple fields have none) and a
type.  `TypeName.from_type_path` is folded into the `Path` payload. -/
structure Field where
  ident : Option String
  ty : RsType
deriving DecidableEq

/-- A `syn::ItemStruct`: its identifier and ordered field list. -/
structure ItemStruct where
  ident : String
  fields : List Field
deriving DecidableEq

/-- The loop of `ByValueChecker::get_field_types`: collect the `TypeName` of
every field whose type is syntactically a `Type::Path`, in field order. -/
def ByValueChecker.get_field_types (s : ItemStruct) : List TypeName :=
  s.fields.foldl
    (fun results f =>
      match f.ty with
      | RsType.Path p => results ++ [p]
      | _ => results)
    []

/-- The loop of `ByValueChecker::has_vtable` over a field list: an early
return of `true` at the first field whose identifier is `vtable_`. -/
def ByValueChecker.has_vtable_fields : List Field → Bool
  | [] => false
  | f :: rest =>
    if f.ident = some "vtable_" then true else ByValueChecker.has_vtable_fields rest

/-- `ByValueChecker::has_vtable`. -/
def ByValueChecker.has_vtable (s : ItemStruct) : Bool :=
  ByValueChecker.has_vtable_fields s.fields

/-- The field loop of `ByValueChecker::ingest_struct`: starting from
`SafeToBePod`, scan the field types in order and break at the first one that
is either absent from the store or recorded `UnsafeToBePod`. -/
def ByValueChecker.field_scan (st : Store) (tyname : TypeName) : List TypeName → PodState
  | [] => PodState.SafeToBePod
  | ty_id :: rest =>
    match Store.lookup st ty_id with
    | none => PodState.UnsafeToBePod (msg_not_known tyname ty_id)
    | some deets =>
      match deets.state with
      | PodState.UnsafeToBePod reason =>
          PodState.UnsafeToBePod (msg_not_safe tyname ty_id reason)
      | _ => ByValueChecker.field_scan st tyname rest

/-- `ByValueChecker::ingest_struct`: compute the field-scan verdict, override
it with the virtual-functions verdict when `has_vtable`, and insert one record
whose `dependent_structs` is the full `get_field_types` list. -/
def ByValueChecker.ingest_struct (st : Store) (s : ItemStruct) (ns : Namespace) : Store :=
  let tyname := TypeName.new ns s.ident
  let fieldlist := ByValueChecker.get_field_types s
  let field_safety_problem := ByValueChecker.field_scan st tyname fieldlist
  let verdict :=
    if ByValueChecker.has_vtable s then PodState.UnsafeToBePod (msg_virtual tyname)
    else field_safety_problem
  Store.insert st tyname ⟨verdict, fieldlist⟩

/-- `ByValueChecker::ingest_nonpod_type`. -/
def ByValueChecker.ingest_nonpod_type (st : Store) (tyname : TypeName) : Store :=
  Store.insert st tyname ⟨PodState.UnsafeToBePod (msg_complex tyname), []⟩

/-- `ByValueChecker::new`, parameterized by the contents of
`KNOWN_TYPES.get_pod_safe_types()` (from `known_types.rs`, which is not among
the sources here; the spec describes it as a static compiled-in list of
`(TypeIdentifier, isByValueSafe)` pairs). -/
def ByValueChecker.new (seed : List (TypeName × Bool)) : Store :=
  seed.foldl
    (fun st p =>
      Store.insert st p.1
        ⟨if p.2 then PodState.IsPod else PodState.UnsafeToBePod (msg_not_pod_safe p.1), []⟩)
    []

/-- `TypedefKind` from `api.rs`; `Ty` stands for `TypedefKind::Type` and
carries the shape of `type_item.ty`. -/
inductive TypedefKind where
  | Ty (ty : RsType)
  | Use
deriving DecidableEq

/-- The shapes of a bindgen mod `syn::Item` that `new_from_apis`
distinguishes: a struct, an enum, or anything else. -/
inductive Item where
  | Struct (s : ItemStruct)
  | Enum
  | OtherItem
deriving DecidableEq

/-- `ApiDetail` from `api.rs`, restricted to the payloads `new_from_apis`
reads: the typedef payload and, for `Type`, the `bindgen_mod_item`. -/
inductive ApiDetail where
  | ConcreteType
  | StringConstructor
  | FunctionItem
  | ConstItem
  | Typedef (payload : TypedefKind)
  | TypeItem (is_forward_declaration : Bool) (bindgen_mod_item : Option Item)
  | CTypeItem (typename : TypeName)
  | OpaqueTypedef
deriving DecidableEq

/-- `Api` from `api.rs`: namespace, identifier and detail (the `deps` set is
never read by the checker). -/
structure Api where
  ns : Namespace
  id : String
  detail : ApiDetail
deriving DecidableEq

/-- `Api::typename()`. -/
def Api.typename (a : Api) : TypeName :=
  TypeName.new a.ns a.id

/-- The typedef arm of `new_from_apis`: a `TypedefKind::Type` whose `ty` is a
`Type::Path` is put through `KNOWN_TYPES.known_type_substitute_path` composed
with `TypeName::from_type_path`; every other payload yields `none`.  The
substitution itself lives in `known_types.rs` (not among the sources here), so
it is passed in as `subst`. -/
def typedef_target (subst : TypeName → Option TypeName) : TypedefKind → Option TypeName
  | TypedefKind.Ty (RsType.Path tn) => subst tn
  | TypedefKind.Ty _ => none
  | TypedefKind.Use => none

/-- One iteration of the api loop of `ByValueChecker::new_from_apis`. -/
def ByValueChecker.ingest_api (subst : TypeName → Option TypeName) (st : Store) (a : Api) : Store :=
  match a.detail with
  | ApiDetail.Typedef payload =>
    match typedef_target subst payload with
    | some tgt => Store.insert st a.typename ⟨PodState.IsAlias tgt, []⟩
    | none => ByValueChecker.ingest_nonpod_type st a.typename
  | ApiDetail.TypeItem _ bindgen_mod_item =>
    match bindgen_mod_item with
    | none => st
    | some (Item.Struct s) => ByValueChecker.ingest_struct st s a.ns
    | some Item.Enum => Store.insert st a.typename ⟨PodState.IsPod, []⟩
    | some Item.OtherItem => st
  | ApiDetail.OpaqueTypedef => ByValueChecker.ingest_nonpod_type st a.typename
  | _ => st

/-- The blocklist pre-pass of `ByValueChecker::new_from_apis`: one
`UnsafeToBePod` blocklist record per blocklisted identifier, in order.
(`TypeName::new_from_user_input` is folded into the `TypeName` entries.) -/
def apply_blocklist (st : Store) (bl : List TypeName) : Store :=
  bl.foldl
    (fun st2 tn => Store.insert st2 tn ⟨PodState.UnsafeToBePod (msg_blocklist tn), []⟩)
    st

/-- The store built by `ByValueChecker::new_from_apis` before it calls
`satisfy_requests`: seed the known types, apply the blocklist, then ingest
every api in order. -/
def ByValueChecker.new_from_apis_store (seed : List (TypeName × Bool))
    (subst : TypeName → Option TypeName) (bl : List TypeName) (apis : List Api) : Store :=
  apis.foldl (ByValueChecker.ingest_api subst) (apply_blocklist (ByValueChecker.new seed) bl)

/-- The key under which `ingest_api` inserts a record, if it inserts one
(the same key for both outcomes of the typedef substitution). -/
def api_key (a : Api) : Option TypeName :=
  match a.detail with
  | ApiDetail.Typedef _ => some a.typename
  | ApiDetail.TypeItem _ bindgen_mod_item =>
    match bindgen_mod_item with
    | some (Item.Struct s) => some (TypeName.new a.ns s.ident)
    | some Item.Enum => some a.typename
    | _ => none
  | ApiDetail.OpaqueTypedef => some a.typename
  | _ => none

/-- The outcome of one iteration of the `while` loop of
`satisfy_requests`: an early `Err` return, loop exit with the final store, or
another iteration with the mutated store and worklist. -/
inductive StepOutcome where
  | Failed (msg : String)
  | Finished (st : Store)
  | More (st : Store) (reqs : List TypeName)
deriving DecidableEq

/-- One iteration of the `while` loop of `ByValueChecker::satisfy_requests`:
pop the last element (`requests.remove(requests.len() - 1)`), look it up, and
either fail, mark it `IsPod` and push its dependents, resolve or retry an
alias, or skip it. -/
def ByValueChecker.satisfy_step (st : Store) (requests : List TypeName) : StepOutcome :=
  match requests.getLast? with
  | none => StepOutcome.Finished st
  | some ty_id =>
    let rest := requests.dropLast
    match Store.lookup st ty_id with
    | none => StepOutcome.Failed (msg_never_saw ty_id)
    | some deets =>
      match deets.state with
      | PodState.UnsafeToBePod error_msg => StepOutcome.Failed error_msg
      | PodState.IsPod => StepOutcome.More st rest
      | PodState.SafeToBePod =>
          StepOutcome.More (Store.setState st ty_id PodState.IsPod)
            (rest ++ deets.dependent_structs)
      | PodState.IsAlias target =>
        match Store.lookup st target with
        | none => StepOutcome.More st (rest ++ [target, ty_id])
        | some alias_target_deets =>
            StepOutcome.More (Store.setState st ty_id alias_target_deets.state) rest

/-- `ByValueChecker::satisfy_requests`, with explicit fuel bounding the number
of loop iterations: `none` means the fuel ran out before the loop finished. -/
def ByValueChecker.satisfy_requests (fuel : Nat) (st : Store) (requests : List TypeName) :
    Option (Except String Store) :=
  match ByValueChecker.satisfy_step st requests with
  | StepOutcome.Failed msg => some (Except.error msg)
  | StepOutcome.Finished st2 => some (Except.ok st2)
  | StepOutcome.More st2 reqs2 =>
    match fuel with
    | 0 => none
    | fuel2 + 1 => ByValueChecker.satisfy_requests fuel2 st2 reqs2

/-- `ByValueChecker::is_pod`: true only on a definite `IsPod` record. -/
def ByValueChecker.is_pod (st : Store) (ty_id : TypeName) : Bool :=
  match Store.lookup st ty_id with
  | some ⟨PodState.IsPod, _⟩ => true
  | _ => false

/-- A field type that stops the `ingest_struct` scan: absent from the store,
or recorded `UnsafeToBePod`. -/
def problematic_field (st : Store) (f : TypeName) : Bool :=
  match Store.lookup st f with
  | none => true
  | some deets =>
    match deets.state with
    | PodState.UnsafeToBePod _ => true
    | _ => false

/-- A store none of whose records is an `IsAlias`. -/
def alias_free (st : Store) : Prop :=
  ∀ e ∈ st, e.2.state.is_alias_state = false

instance alias_free_decidable (st : Store) : Decidable (alias_free st) :=
  inferInstanceAs (Decidable (∀ e ∈ st, e.2.state.is_alias_state = false))

/-- The identifiers reachable from `roots` through the `dependent_structs`
lists of `SafeToBePod` records of `st`: the transitive dependency set of a
confirmation request. -/
inductive Reaches (st : Store) (roots : List TypeName) : TypeName → Prop where
  | root (t : TypeName) : t ∈ roots → Reaches st roots t
  | dep (u : TypeName) (d : StructDetails) (t : TypeName) :
      Reaches st roots u → Store.lookup st u = some d →
      d.state = PodState.SafeToBePod → t ∈ d.dependent_structs → Reaches st roots t

/-- The number of `SafeToBePod` entries of the store; the measure that shrinks
whenever `satisfy_step` mutates the store of an alias-free run. -/
def safe_count : Store → Nat
  | [] => 0
  | e :: rest =>
    (match e.2.state with
     | PodState.SafeToBePod => 1
     | _ => 0) + safe_count rest

/-- A concrete identifier used by the concrete instantiations below. -/
def tA : TypeName := ⟨[], "A"⟩

/-- A concrete identifier used by the concrete instantiations below. -/
def tB : TypeName := ⟨[], "B"⟩

/-- A concrete identifier used by the concrete instantiations below. -/
def tC : TypeName := ⟨[], "C"⟩

/-- Looking up the key just inserted yields the inserted record. -/
theorem Store.lookup_insert_self (st : Store) (t : TypeName) (d : StructDetails) :
    Store.lookup (Store.insert st t d) t = some d := by
  simp [Store.insert, Store.lookup]

/-- Inserting under one key leaves every other key's lookup unchanged. -/
theorem Store.lookup_insert_ne (st : Store) (t : TypeName) (d : StructDetails) (u : TypeName)
    (h : u ≠ t) : Store.lookup (Store.insert st t d) u = Store.lookup st u := by
  simp only [Store.insert, Store.lookup]
  rw [if_neg (Ne.symm h)]

/-- `setState` rewrites the state of the key's record and nothing else. -/
theorem Store.lookup_setState (st : Store) (t : TypeName) (s : PodState) (u : TypeName) :
    Store.lookup (Store.setState st t s) u =
      if u = t then (Store.lookup st u).map (fun d => ⟨s, d.dependent_structs⟩)
      else Store.lookup st u := by
  induction st with
  | nil => simp [Store.setState, Store.lookup]
  | cons e rest ih =>
    simp only [Store.setState, Store.lookup]
    by_cases h1 : e.1 = t <;> by_cases h2 : u = t
    · simp_all [Store.lookup]
    · have h3 : t ≠ u := fun h => h2 h.symm
      simp_all [Store.lookup]
    · simp_all [Store.lookup]
    · simp_all [Store.lookup]

/-- A state whose `is_alias_state` is false is not an `IsAlias`. -/
theorem not_alias_of_is_alias_state_false {s : PodState} (h : s.is_alias_state = false)
    (tgt : TypeName) : s ≠ PodState.IsAlias tgt := by
  cases s <;> simp_all [PodState.is_alias_state]

/-- Every record looked up in an alias-free store is not an alias. -/
theorem alias_free_lookup {st : Store} {t : TypeName} {d : StructDetails}
    (hA : alias_free st) (h : Store.lookup st t = some d) :
    d.state.is_alias_state = false := by
  induction st with
  | nil => simp [Store.lookup] at h
  | cons e rest ih =>
    simp only [Store.lookup] at h
    by_cases h1 : e.1 = t
    · rw [if_pos h1] at h
      cases h
      exact hA e (List.mem_cons_self e rest)
    · rw [if_neg h1] at h
      exact ih (fun e2 he2 => hA e2 (List.mem_cons_of_mem e he2)) h

/-- Marking a record `IsPod` keeps the store alias-free. -/
theorem alias_free_setState {st : Store} {t : TypeName} (hA : alias_free st) :
    alias_free (Store.setState st t PodState.IsPod) := by
  induction st with
  | nil => intro e he; simp [Store.setState] at he
  | cons e rest ih =>
    intro e2 he2
    simp only [Store.setState, List.mem_cons] at he2
    rcases he2 with h | h
    · by_cases h1 : e.1 = t
      · rw [if_pos h1] at h
        subst h
        rfl
      · rw [if_neg h1] at h
        subst h
        exact hA _ (List.mem_cons_self _ rest)
    · exact ih (fun e3 he3 => hA e3 (List.mem_cons_of_mem e he3)) e2 h

/-- Unfolding `satisfy_requests` at a failing step. -/
theorem satisfy_requests_failed {st : Store} {reqs : List TypeName} {msg : String}
    (h : ByValueChecker.satisfy_step st reqs = StepOutcome.Failed msg) (fuel : Nat) :
    ByValueChecker.satisfy_requests fuel st reqs = some (Except.error msg) := by
  unfold ByValueChecker.satisfy_requests
  rw [h]

/-- Unfolding `satisfy_requests` at a finishing step. -/
theorem satisfy_requests_finished {st st2 : Store} {reqs : List TypeName}
    (h : ByValueChecker.satisfy_step st reqs = StepOutcome.Finished st2) (fuel : Nat) :
    ByValueChecker.satisfy_requests fuel st reqs = some (Except.ok st2) := by
  unfold ByValueChecker.satisfy_requests
  rw [h]

/-- Unfolding `satisfy_requests` at a continuing step with fuel left. -/
theorem satisfy_requests_more_succ {st st2 : Store} {reqs reqs2 : List TypeName}
    (h : ByValueChecker.satisfy_step st reqs = StepOutcome.More st2 reqs2) (fuel : Nat) :
    ByValueChecker.satisfy_requests (fuel + 1) st reqs =
      ByValueChecker.satisfy_requests fuel st2 reqs2 := by
  conv_lhs => unfold ByValueChecker.satisfy_requests
  rw [h]

/-- Unfolding `satisfy_requests` at a continuing step without fuel. -/
theorem satisfy_requests_more_zero {st st2 : Store} {reqs reqs2 : List TypeName}
    (h : ByValueChecker.satisfy_step st reqs = StepOutcome.More st2 reqs2) :
    ByValueChecker.satisfy_requests 0 st reqs = none := by
  unfold ByValueChecker.satisfy_requests
  rw [h]

/-- `satisfy_step` on a nonempty worklist, written with the popped element
explicit. -/
theorem satisfy_step_concat (st : Store) (rest : List TypeName) (t : TypeName) :
    ByValueChecker.satisfy_step st (rest ++ [t]) =
      match Store.lookup st t with
      | none => StepOutcome.Failed (msg_never_saw t)
      | some deets =>
        match deets.state with
        | PodState.UnsafeToBePod error_msg => StepOutcome.Failed error_msg
        | PodState.IsPod => StepOutcome.More st rest
        | PodState.SafeToBePod =>
            StepOutcome.More (Store.setState st t PodState.IsPod)
              (rest ++ deets.dependent_structs)
        | PodState.IsAlias target =>
          match Store.lookup st target with
          | none => StepOutcome.More st (rest ++ [target, t])
          | some alias_target_deets =>
              StepOutcome.More (Store.setState st t alias_target_deets.state) rest := by
  simp [ByValueChecker.satisfy_step, List.getLast?_concat, List.dropLast_concat]

/-- `has_vtable_fields` is true exactly when some field is named `vtable_`. -/
theorem has_vtable_fields_iff (l : List Field) :
    ByValueChecker.has_vtable_fields l = true ↔ ∃ f ∈ l, f.ident = some "vtable_" := by
  induction l with
  | nil => simp [ByValueChecker.has_vtable_fields]
  | cons f rest ih =>
    by_cases h : f.ident = some "vtable_" <;>
      simp [ByValueChecker.has_vtable_fields, h, ih]

/-- `has_vtable_fields` only reads field identifiers, never field types. -/
theorem has_vtable_fields_map_ty (l : List Field) (g : RsType → RsType) :
    ByValueChecker.has_vtable_fields (l.map (fun f => ⟨f.ident, g f.ty⟩)) =
      ByValueChecker.has_vtable_fields l := by
  induction l with
  | nil => rfl
  | cons f rest ih =>
    by_cases h : f.ident = some "vtable_" <;>
      simp [ByValueChecker.has_vtable_fields, h, ih]

/-- Claim C9: a struct declaration is judged to have virtual dispatch iff at
least one of its named fields is named exactly `vtable_`; the field types play
no role, and a struct whose fields are all unnamed is never judged to have
virtual dispatch. -/
theorem c9_has_vtable_iff (s : ItemStruct) (g : RsType → RsType) :
    (ByValueChecker.has_vtable s = true ↔ ∃ f ∈ s.fields, f.ident = some "vtable_") ∧
    (ByValueChecker.has_vtable ⟨s.ident, s.fields.map (fun f => ⟨f.ident, g f.ty⟩)⟩ =
      ByValueChecker.has_vtable s) ∧
    ((∀ f ∈ s.fields, f.ident = none) → ByValueChecker.has_vtable s = false) := by
  refine ⟨has_vtable_fields_iff s.fields, has_vtable_fields_map_ty s.fields g, ?_⟩
  intro hnone
  cases hv : ByValueChecker.has_vtable s with
  | false => rfl
  | true =>
    obtain ⟨f, hf, hid⟩ := (has_vtable_fields_iff s.fields).mp hv
    rw [hnone f hf] at hid
    cases hid

/-- Witness for C9 at concrete structs: a pointer-typed field named `vtable_`
triggers the judgment, an unnamed field never does. -/
theorem c9_has_vtable_iff_witness :
    ByValueChecker.has_vtable ⟨"T", [⟨some "vtable_", RsType.Ptr⟩]⟩ = true ∧
    ByValueChecker.has_vtable ⟨"U", [⟨none, RsType.Path tA⟩]⟩ = false :=
  ⟨(c9_has_vtable_iff ⟨"T", [⟨some "vtable_", RsType.Ptr⟩]⟩ id).1.mpr
      ⟨⟨some "vtable_", RsType.Ptr⟩, by simp, rfl⟩,
   (c9_has_vtable_iff ⟨"U", [⟨none, RsType.Path tA⟩]⟩ id).2.2 (by decide)⟩

/-- Claim C4: `is_pod` is true iff the store holds a record whose verdict is
exactly `IsPod`; an absent record, a `SafeToBePod` never confirmed, an
`UnsafeToBePod`, or an unresolved `IsAlias` all yield false. -/
theorem c4_is_pod_iff (st : Store) (t : TypeName) :
    (ByValueChecker.is_pod st t = true ↔
      ∃ deps, Store.lookup st t = some ⟨PodState.IsPod, deps⟩) ∧
    (Store.lookup st t = none → ByValueChecker.is_pod st t = false) ∧
    (∀ deps, Store.lookup st t = some ⟨PodState.SafeToBePod, deps⟩ →
      ByValueChecker.is_pod st t = false) ∧
    (∀ r deps, Store.lookup st t = some ⟨PodState.UnsafeToBePod r, deps⟩ →
      ByValueChecker.is_pod st t = false) ∧
    (∀ tgt deps, Store.lookup st t = some ⟨PodState.IsAlias tgt, deps⟩ →
      ByValueChecker.is_pod st t = false) := by
  unfold ByValueChecker.is_pod
  cases h : Store.lookup st t with
  | none => simp
  | some d =>
    obtain ⟨s, deps0⟩ := d
    cases s <;> simp

/-- Witness for C4 at concrete stores: a record confirmed `IsPod` answers
true, a `SafeToBePod` record answers false. -/
theorem c4_is_pod_iff_witness :
    ByValueChecker.is_pod [(tA, ⟨PodState.IsPod, []⟩)] tA = true ∧
    ByValueChecker.is_pod [(tB, ⟨PodState.SafeToBePod, []⟩)] tB = false :=
  ⟨(c4_is_pod_iff [(tA, ⟨PodState.IsPod, []⟩)] tA).1.mpr ⟨[], rfl⟩,
   (c4_is_pod_iff [(tB, ⟨PodState.SafeToBePod, []⟩)] tB).2.2.1 [] rfl⟩

/-- Claim C3: `satisfy_requests` fails on the element popped first — the last
element of the worklist — with the never-saw-a-declaration error when that
element has no record, and with the recorded reason propagated verbatim when
its record is `UnsafeToBePod`, regardless of what earlier worklist elements
(popped later) would have produced. -/
theorem c3_first_error_lifo (fuel : Nat) (st : Store) (l : List TypeName) (t : TypeName) :
    (Store.lookup st t = none →
      ByValueChecker.satisfy_requests fuel st (l ++ [t]) =
        some (Except.error (msg_never_saw t))) ∧
    (∀ r deps, Store.lookup st t = some ⟨PodState.UnsafeToBePod r, deps⟩ →
      ByValueChecker.satisfy_requests fuel st (l ++ [t]) = some (Except.error r)) := by
  constructor
  · intro h
    have hs : ByValueChecker.satisfy_step st (l ++ [t]) =
        StepOutcome.Failed (msg_never_saw t) := by
      rw [satisfy_step_concat, h]
    exact satisfy_requests_failed hs fuel
  · intro r deps h
    have hs : ByValueChecker.satisfy_step st (l ++ [t]) = StepOutcome.Failed r := by
      rw [satisfy_step_concat, h]
    exact satisfy_requests_failed hs fuel

/-- Witness for C3 at concrete inputs: a missing record reports never-saw,
and an `UnsafeToBePod` record at the popped-first position reports its reason
verbatim even though the other request (`tA`) has no record at all. -/
theorem c3_first_error_lifo_witness :
    ByValueChecker.satisfy_requests 0 [] ([] ++ [tA]) =
      some (Except.error (msg_never_saw tA)) ∧
    ByValueChecker.satisfy_requests 0 [(tB, ⟨PodState.UnsafeToBePod "boom", []⟩)]
      ([tA] ++ [tB]) = some (Except.error "boom") :=
  ⟨(c3_first_error_lifo 0 [] [] tA).1 rfl,
   (c3_first_error_lifo 0 [(tB, ⟨PodState.UnsafeToBePod "boom", []⟩)] [tA] tB).2 "boom" [] rfl⟩

/-- Claim C6 (amended): popping an identifier whose record is `IsAlias target`
with `target` unrecorded appends `target` then the identifier, in that order;
because the worklist pops from the end, the next element popped is the
original identifier, not the target. -/
theorem c6_alias_repush (st : Store) (l : List TypeName) (t tgt : TypeName)
    (d : StructDetails) (h1 : Store.lookup st t = some d)
    (h2 : d.state = PodState.IsAlias tgt) (h3 : Store.lookup st tgt = none) :
    ByValueChecker.satisfy_step st (l ++ [t]) = StepOutcome.More st (l ++ [tgt, t]) ∧
    (l ++ [tgt, t]).getLast? = some t := by
  constructor
  · simp [satisfy_step_concat, h1, h2, h3]
  · have h4 : l ++ [tgt, t] = (l ++ [tgt]) ++ [t] := by simp
    rw [h4, List.getLast?_concat]

/-- Witness for C6 at a concrete store with an alias whose target has no
record. -/
theorem c6_alias_repush_witness :
    ByValueChecker.satisfy_step [(tA, ⟨PodState.IsAlias tB, []⟩)] ([] ++ [tA]) =
      StepOutcome.More [(tA, ⟨PodState.IsAlias tB, []⟩)] ([] ++ [tB, tA]) ∧
    ([] ++ [tB, tA]).getLast? = some tA :=
  c6_alias_repush [(tA, ⟨PodState.IsAlias tB, []⟩)] [] tA tB
    ⟨PodState.IsAlias tB, []⟩ rfl rfl rfl

/-- Counterexample to C6 as stated: after the re-push the next element popped
is the original identifier `tA`, not the target `tB`, so the target is not
processed before the original identifier. -/
theorem c6_counterexample :
    ByValueChecker.satisfy_step [(tA, ⟨PodState.IsAlias tB, []⟩)] [tA] =
      StepOutcome.More [(tA, ⟨PodState.IsAlias tB, []⟩)] [tB, tA] ∧
    [tB, tA].getLast? = some tA ∧ tA ≠ tB := by
  exact ⟨rfl, rfl, by decide⟩

/-- A record `IsAlias target` whose target never acquires a record makes the
`satisfy_requests` loop run forever: every fuel bound is exhausted. -/
theorem alias_missing_diverges (st : Store) (t tgt : TypeName) (d : StructDetails)
    (h1 : Store.lookup st t = some d) (h2 : d.state = PodState.IsAlias tgt)
    (h3 : Store.lookup st tgt = none) :
    ∀ fuel l, ByValueChecker.satisfy_requests fuel st (l ++ [t]) = none := by
  intro fuel
  induction fuel with
  | zero =>
    intro l
    have hs : ByValueChecker.satisfy_step st (l ++ [t]) =
        StepOutcome.More st (l ++ [tgt, t]) := by
      simp [satisfy_step_concat, h1, h2, h3]
    exact satisfy_requests_more_zero hs
  | succ n ih =>
    intro l
    have hs : ByValueChecker.satisfy_step st (l ++ [t]) =
        StepOutcome.More st (l ++ [tgt, t]) := by
      simp [satisfy_step_concat, h1, h2, h3]
    rw [satisfy_requests_more_succ hs n]
    have h4 : l ++ [tgt, t] = (l ++ [tgt]) ++ [t] := by simp
    rw [h4]
    exact ih (l ++ [tgt])

/-- Counterexample to C7 as stated: on the finite store holding only
`tA ↦ IsAlias tB` and the finite request list `[tA]`, no amount of fuel makes
`satisfy_requests` return — the retry of the unresolved alias is unbounded. -/
theorem c7_counterexample :
    ¬ ∃ fuel r, ByValueChecker.satisfy_requests fuel
      [(tA, ⟨PodState.IsAlias tB, []⟩)] [tA] = some r := by
  rintro ⟨fuel, r, h⟩
  have hd := alias_missing_diverges [(tA, ⟨PodState.IsAlias tB, []⟩)] tA tB
    ⟨PodState.IsAlias tB, []⟩ rfl rfl rfl fuel []
  rw [List.nil_append] at hd
  rw [hd] at h
  cases h

/-- `satisfy_step` on an empty worklist exits the loop with the store. -/
theorem satisfy_step_nil (st : Store) :
    ByValueChecker.satisfy_step st [] = StepOutcome.Finished st := rfl

/-- Exhaustive description of one `satisfy_step`: the loop exits on an empty
worklist, fails, or pops the last element and continues according to its
record. -/
theorem step_cases (st : Store) (reqs : List TypeName) :
    (reqs = [] ∧ ByValueChecker.satisfy_step st reqs = StepOutcome.Finished st) ∨
    (∃ msg, ByValueChecker.satisfy_step st reqs = StepOutcome.Failed msg) ∨
    (∃ l t deps, reqs = l ++ [t] ∧
      Store.lookup st t = some ⟨PodState.IsPod, deps⟩ ∧
      ByValueChecker.satisfy_step st reqs = StepOutcome.More st l) ∨
    (∃ l t deps, reqs = l ++ [t] ∧
      Store.lookup st t = some ⟨PodState.SafeToBePod, deps⟩ ∧
      ByValueChecker.satisfy_step st reqs =
        StepOutcome.More (Store.setState st t PodState.IsPod) (l ++ deps)) ∨
    (∃ l t tgt deps, reqs = l ++ [t] ∧
      Store.lookup st t = some ⟨PodState.IsAlias tgt, deps⟩ ∧
      ((Store.lookup st tgt = none ∧
        ByValueChecker.satisfy_step st reqs = StepOutcome.More st (l ++ [tgt, t])) ∨
       (∃ td, Store.lookup st tgt = some td ∧
        ByValueChecker.satisfy_step st reqs =
          StepOutcome.More (Store.setState st t td.state) l))) := by
  rcases reqs.eq_nil_or_concat' with hnil | ⟨l, t, rfl⟩
  · subst hnil
    exact Or.inl ⟨rfl, rfl⟩
  · cases hl : Store.lookup st t with
    | none =>
      exact Or.inr (Or.inl ⟨msg_never_saw t, by simp [satisfy_step_concat, hl]⟩)
    | some d =>
      obtain ⟨s, deps⟩ := d
      cases s with
      | UnsafeToBePod msg =>
        exact Or.inr (Or.inl ⟨msg, by simp [satisfy_step_concat, hl]⟩)
      | IsPod =>
        exact Or.inr (Or.inr (Or.inl
          ⟨l, t, deps, rfl, hl, by simp [satisfy_step_concat, hl]⟩))
      | SafeToBePod =>
        exact Or.inr (Or.inr (Or.inr (Or.inl
          ⟨l, t, deps, rfl, hl, by simp [satisfy_step_concat, hl]⟩)))
      | IsAlias tgt =>
        cases htgt : Store.lookup st tgt with
        | none =>
          exact Or.inr (Or.inr (Or.inr (Or.inr ⟨l, t, tgt, deps, rfl, hl,
            Or.inl ⟨htgt, by simp [satisfy_step_concat, hl, htgt]⟩⟩)))
        | some td =>
          exact Or.inr (Or.inr (Or.inr (Or.inr ⟨l, t, tgt, deps, rfl, hl,
            Or.inr ⟨td, htgt, by simp [satisfy_step_concat, hl, htgt]⟩⟩)))

/-- A record recorded `IsPod` makes `is_pod` true. -/
theorem is_pod_of_lookup_IsPod {st : Store} {t : TypeName} {deps : List TypeName}
    (h : Store.lookup st t = some ⟨PodState.IsPod, deps⟩) :
    ByValueChecker.is_pod st t = true := by
  unfold ByValueChecker.is_pod
  rw [h]

/-- A record recorded `SafeToBePod` leaves `is_pod` false. -/
theorem is_pod_false_of_lookup_safe {st : Store} {t : TypeName} {deps : List TypeName}
    (h : Store.lookup st t = some ⟨PodState.SafeToBePod, deps⟩) :
    ByValueChecker.is_pod st t = false := by
  unfold ByValueChecker.is_pod
  rw [h]

/-- Setting a present record to `IsPod` makes `is_pod` true for it. -/
theorem is_pod_setState_self {st : Store} {t : TypeName} {d : StructDetails}
    (h : Store.lookup st t = some d) :
    ByValueChecker.is_pod (Store.setState st t PodState.IsPod) t = true := by
  unfold ByValueChecker.is_pod
  rw [Store.lookup_setState, if_pos rfl, h]
  rfl

/-- Setting any record to `IsPod` preserves `is_pod` everywhere. -/
theorem is_pod_setState_mono {st : Store} {t u : TypeName}
    (h : ByValueChecker.is_pod st u = true) :
    ByValueChecker.is_pod (Store.setState st t PodState.IsPod) u = true := by
  unfold ByValueChecker.is_pod at h ⊢
  rw [Store.lookup_setState]
  by_cases h2 : u = t
  · rw [if_pos h2]
    cases hl : Store.lookup st u with
    | none => rw [hl] at h; simp at h
    | some d => rfl
  · rw [if_neg h2]
    exact h

/-- A successful alias-free run never converts an `IsPod` verdict away:
everything already confirmed stays confirmed in the final store. -/
theorem run_ok_preserves_pod :
    ∀ fuel (st : Store) (reqs : List TypeName) (st2 : Store), alias_free st →
      ByValueChecker.satisfy_requests fuel st reqs = some (Except.ok st2) →
      ∀ u, ByValueChecker.is_pod st u = true → ByValueChecker.is_pod st2 u = true := by
  intro fuel
  induction fuel with
  | zero =>
    intro st reqs st2 hA hrun u hu
    rcases step_cases st reqs with ⟨hnil, hs⟩ | ⟨msg, hs⟩ |
      ⟨l, t, deps, hreq, hl, hs⟩ | ⟨l, t, deps, hreq, hl, hs⟩ |
      ⟨l, t, tgt, deps, hreq, hl, hrest⟩
    · rw [satisfy_requests_finished hs 0] at hrun
      injection hrun with h1
      injection h1 with h2
      subst h2
      exact hu
    · rw [satisfy_requests_failed hs 0] at hrun
      simp at hrun
    · rw [satisfy_requests_more_zero hs] at hrun
      cases hrun
    · rw [satisfy_requests_more_zero hs] at hrun
      cases hrun
    · rcases hrest with ⟨htgt, hs⟩ | ⟨td, htgt, hs⟩ <;>
        (rw [satisfy_requests_more_zero hs] at hrun; cases hrun)
  | succ n ih =>
    intro st reqs st2 hA hrun u hu
    rcases step_cases st reqs with ⟨hnil, hs⟩ | ⟨msg, hs⟩ |
      ⟨l, t, deps, hreq, hl, hs⟩ | ⟨l, t, deps, hreq, hl, hs⟩ |
      ⟨l, t, tgt, deps, hreq, hl, hrest⟩
    · rw [satisfy_requests_finished hs (n + 1)] at hrun
      injection hrun with h1
      injection h1 with h2
      subst h2
      exact hu
    · rw [satisfy_requests_failed hs (n + 1)] at hrun
      simp at hrun
    · rw [satisfy_requests_more_succ hs n] at hrun
      exact ih st l st2 hA hrun u hu
    · rw [satisfy_requests_more_succ hs n] at hrun
      exact ih _ _ st2 (alias_free_setState hA) hrun u (is_pod_setState_mono hu)
    · exfalso
      simpa [PodState.is_alias_state] using alias_free_lookup hA hl

/-- A successful alias-free run confirms every identifier of the worklist it
started from. -/
theorem run_ok_mem_pod :
    ∀ fuel (st : Store) (reqs : List TypeName) (st2 : Store), alias_free st →
      ByValueChecker.satisfy_requests fuel st reqs = some (Except.ok st2) →
      ∀ u ∈ reqs, ByValueChecker.is_pod st2 u = true := by
  intro fuel
  induction fuel with
  | zero =>
    intro st reqs st2 hA hrun u hu
    rcases step_cases st reqs with ⟨hnil, hs⟩ | ⟨msg, hs⟩ |
      ⟨l, t, deps, hreq, hl, hs⟩ | ⟨l, t, deps, hreq, hl, hs⟩ |
      ⟨l, t, tgt, deps, hreq, hl, hrest⟩
    · subst hnil
      cases hu
    · rw [satisfy_requests_failed hs 0] at hrun
      simp at hrun
    · rw [satisfy_requests_more_zero hs] at hrun
      cases hrun
    · rw [satisfy_requests_more_zero hs] at hrun
      cases hrun
    · rcases hrest with ⟨htgt, hs⟩ | ⟨td, htgt, hs⟩ <;>
        (rw [satisfy_requests_more_zero hs] at hrun; cases hrun)
  | succ n ih =>
    intro st reqs st2 hA hrun u hu
    rcases step_cases st reqs with ⟨hnil, hs⟩ | ⟨msg, hs⟩ |
      ⟨l, t, deps, hreq, hl, hs⟩ | ⟨l, t, deps, hreq, hl, hs⟩ |
      ⟨l, t, tgt, deps, hreq, hl, hrest⟩
    · subst hnil
      cases hu
    · rw [satisfy_requests_failed hs (n + 1)] at hrun
      simp at hrun
    · rw [satisfy_requests_more_succ hs n] at hrun
      subst hreq
      rcases List.mem_append.mp hu with h | h
      · exact ih st l st2 hA hrun u h
      · rw [List.mem_singleton.mp h]
        exact run_ok_preserves_pod n st l st2 hA hrun t (is_pod_of_lookup_IsPod hl)
    · rw [satisfy_requests_more_succ hs n] at hrun
      subst hreq
      rcases List.mem_append.mp hu with h | h
      · exact ih _ _ st2 (alias_free_setState hA) hrun u (List.mem_append_left deps h)
      · rw [List.mem_singleton.mp h]
        exact run_ok_preserves_pod n _ _ st2 (alias_free_setState hA) hrun t
          (is_pod_setState_self hl)
    · exfalso
      simpa [PodState.is_alias_state] using alias_free_lookup hA hl

/-- In a successful alias-free run, a record that started `SafeToBePod` and
ended confirmed has all of its recorded dependents confirmed as well. -/
theorem run_ok_safe_deps_pod :
    ∀ fuel (st : Store) (reqs : List TypeName) (st2 : Store) (v : TypeName)
      (deps : List TypeName), alias_free st →
      ByValueChecker.satisfy_requests fuel st reqs = some (Except.ok st2) →
      Store.lookup st v = some ⟨PodState.SafeToBePod, deps⟩ →
      ByValueChecker.is_pod st2 v = true →
      ∀ u ∈ deps, ByValueChecker.is_pod st2 u = true := by
  intro fuel
  induction fuel with
  | zero =>
    intro st reqs st2 v deps hA hrun hlv hpod u hu
    rcases step_cases st reqs with ⟨hnil, hs⟩ | ⟨msg, hs⟩ |
      ⟨l, t, deps2, hreq, hl, hs⟩ | ⟨l, t, deps2, hreq, hl, hs⟩ |
      ⟨l, t, tgt, deps2, hreq, hl, hrest⟩
    · rw [satisfy_requests_finished hs 0] at hrun
      injection hrun with h1
      injection h1 with h2
      subst h2
      rw [is_pod_false_of_lookup_safe hlv] at hpod
      cases hpod
    · rw [satisfy_requests_failed hs 0] at hrun
      simp at hrun
    · rw [satisfy_requests_more_zero hs] at hrun
      cases hrun
    · rw [satisfy_requests_more_zero hs] at hrun
      cases hrun
    · rcases hrest with ⟨htgt, hs⟩ | ⟨td, htgt, hs⟩ <;>
        (rw [satisfy_requests_more_zero hs] at hrun; cases hrun)
  | succ n ih =>
    intro st reqs st2 v deps hA hrun hlv hpod u hu
    rcases step_cases st reqs with ⟨hnil, hs⟩ | ⟨msg, hs⟩ |
      ⟨l, t, deps2, hreq, hl, hs⟩ | ⟨l, t, deps2, hreq, hl, hs⟩ |
      ⟨l, t, tgt, deps2, hreq, hl, hrest⟩
    · rw [satisfy_requests_finished hs (n + 1)] at hrun
      injection hrun with h1
      injection h1 with h2
      subst h2
      rw [is_pod_false_of_lookup_safe hlv] at hpod
      cases hpod
    · rw [satisfy_requests_failed hs (n + 1)] at hrun
      simp at hrun
    · rw [satisfy_requests_more_succ hs n] at hrun
      exact ih st l st2 v deps hA hrun hlv hpod u hu
    · rw [satisfy_requests_more_succ hs n] at hrun
      by_cases hteq : t = v
      · subst hteq
        rw [hl] at hlv
        injection hlv with h1
        injection h1 with h2 h3
        subst h3
        exact run_ok_mem_pod n _ _ st2 (alias_free_setState hA) hrun u
          (List.mem_append_right l hu)
      · have hlv2 : Store.lookup (Store.setState st t PodState.IsPod) v =
            some ⟨PodState.SafeToBePod, deps⟩ := by
          rw [Store.lookup_setState, if_neg (fun h => hteq h.symm)]
          exact hlv
        exact ih _ _ st2 v deps (alias_free_setState hA) hrun hlv2 hpod u hu
    · exfalso
      simpa [PodState.is_alias_state] using alias_free_lookup hA hl

/-- Claim C2 (amended to alias-free stores): when `satisfy_requests` returns
`Ok` over a store with no `IsAlias` record, every requested identifier and
every identifier reached from it through the `dependent_structs` lists of
`SafeToBePod` records ends up with verdict `IsPod`, so `is_pod` answers true
for all of them. -/
theorem c2_confirm_transitive (fuel : Nat) (st : Store) (reqs : List TypeName)
    (st2 : Store) (hA : alias_free st)
    (hrun : ByValueChecker.satisfy_requests fuel st reqs = some (Except.ok st2)) :
    ∀ t, Reaches st reqs t → ByValueChecker.is_pod st2 t = true := by
  intro t hr
  induction hr with
  | root t2 ht => exact run_ok_mem_pod fuel st reqs st2 hA hrun t2 ht
  | dep u d t2 hru hlu hstate hmem ih =>
    obtain ⟨s, deps2⟩ := d
    simp only at hstate
    subst hstate
    exact run_ok_safe_deps_pod fuel st reqs st2 u deps2 hA hrun hlu ih t2 hmem

/-- Witness for C2 at a concrete store: requesting `tA` (a `SafeToBePod`
record depending on `tB`) confirms the transitively reached `tB` as well. -/
theorem c2_confirm_transitive_witness :
    alias_free [(tA, ⟨PodState.SafeToBePod, [tB]⟩), (tB, ⟨PodState.SafeToBePod, []⟩)] ∧
    ByValueChecker.satisfy_requests 2
      [(tA, ⟨PodState.SafeToBePod, [tB]⟩), (tB, ⟨PodState.SafeToBePod, []⟩)] [tA] =
      some (Except.ok [(tA, ⟨PodState.IsPod, [tB]⟩), (tB, ⟨PodState.IsPod, []⟩)]) ∧
    ByValueChecker.is_pod [(tA, ⟨PodState.IsPod, [tB]⟩), (tB, ⟨PodState.IsPod, []⟩)] tB =
      true :=
  ⟨by decide, rfl,
   c2_confirm_transitive 2
     [(tA, ⟨PodState.SafeToBePod, [tB]⟩), (tB, ⟨PodState.SafeToBePod, []⟩)] [tA]
     [(tA, ⟨PodState.IsPod, [tB]⟩), (tB, ⟨PodState.IsPod, []⟩)] (by decide) rfl tB
     (Reaches.dep tA ⟨PodState.SafeToBePod, [tB]⟩ tB
       (Reaches.root tA (by simp)) rfl rfl (by simp))⟩

/-- Counterexample to C2 as stated: with an `IsAlias` record pointing at a
`SafeToBePod` record, `satisfy_requests` returns `Ok` yet the requested
identifier `tA` only receives the copied `SafeToBePod` verdict, so it is not
confirmed. -/
theorem c2_counterexample :
    ByValueChecker.satisfy_requests 1
      [(tA, ⟨PodState.IsAlias tB, []⟩), (tB, ⟨PodState.SafeToBePod, []⟩)] [tA] =
      some (Except.ok
        [(tA, ⟨PodState.SafeToBePod, []⟩), (tB, ⟨PodState.SafeToBePod, []⟩)]) ∧
    ByValueChecker.is_pod
      [(tA, ⟨PodState.SafeToBePod, []⟩), (tB, ⟨PodState.SafeToBePod, []⟩)] tA = false :=
  ⟨rfl, rfl⟩

/-- Setting a record to `IsPod` never increases the `SafeToBePod` count. -/
theorem safe_count_setState_le (st : Store) (t : TypeName) :
    safe_count (Store.setState st t PodState.IsPod) ≤ safe_count st := by
  induction st with
  | nil => simp [Store.setState, safe_count]
  | cons e rest ih =>
    by_cases h1 : e.1 = t
    · simp only [Store.setState, if_pos h1]
      simp [safe_count]
      exact le_trans ih (Nat.le_add_left _ _)
    · simp only [Store.setState, if_neg h1]
      simp only [safe_count]
      exact Nat.add_le_add_left ih _

/-- A `SafeToBePod` record forces a positive `SafeToBePod` count. -/
theorem safe_count_pos_of_lookup_safe {st : Store} {t : TypeName} {deps : List TypeName}
    (h : Store.lookup st t = some ⟨PodState.SafeToBePod, deps⟩) :
    1 ≤ safe_count st := by
  induction st with
  | nil => simp [Store.lookup] at h
  | cons e rest ih =>
    simp only [Store.lookup] at h
    simp only [safe_count]
    by_cases h1 : e.1 = t
    · rw [if_pos h1] at h
      injection h with h2
      rw [h2]
      show 1 ≤ 1 + safe_count rest
      omega
    · rw [if_neg h1] at h
      exact le_trans (ih h) (Nat.le_add_left _ _)

/-- Confirming a record that is currently `SafeToBePod` strictly shrinks the
`SafeToBePod` count: the measure of the alias-free termination argument. -/
theorem safe_count_setState_lt {st : Store} {t : TypeName} {deps : List TypeName}
    (h : Store.lookup st t = some ⟨PodState.SafeToBePod, deps⟩) :
    safe_count (Store.setState st t PodState.IsPod) < safe_count st := by
  induction st with
  | nil => simp [Store.lookup] at h
  | cons e rest ih =>
    simp only [Store.lookup] at h
    simp only [Store.setState]
    by_cases h1 : e.1 = t
    · rw [if_pos h1] at h
      injection h with h2
      rw [if_pos h1]
      simp only [safe_count, h2]
      show 0 + safe_count (Store.setState rest t PodState.IsPod) < 1 + safe_count rest
      have h3 := safe_count_setState_le rest t
      omega
    · rw [if_neg h1] at h
      rw [if_neg h1]
      simp only [safe_count]
      exact Nat.add_lt_add_left (ih h) _

/-- Bounded-worklist half of the termination argument: with every
strictly-smaller-measure store already known to terminate, a worklist of
bounded length terminates over a fixed alias-free store. -/
theorem term_inner (st : Store) (hA : alias_free st)
    (hsmall : ∀ st2 reqs2, alias_free st2 → safe_count st2 < safe_count st →
      ∃ fuel r, ByValueChecker.satisfy_requests fuel st2 reqs2 = some r) :
    ∀ m reqs, reqs.length ≤ m →
      ∃ fuel r, ByValueChecker.satisfy_requests fuel st reqs = some r := by
  intro m
  induction m with
  | zero =>
    intro reqs hlen
    have hnil : reqs = [] := List.eq_nil_of_length_eq_zero (Nat.le_zero.mp hlen)
    subst hnil
    exact ⟨0, Except.ok st, satisfy_requests_finished (satisfy_step_nil st) 0⟩
  | succ m ih =>
    intro reqs hlen
    rcases step_cases st reqs with ⟨hnil, hs⟩ | ⟨msg, hs⟩ |
      ⟨l, t, deps, hreq, hl, hs⟩ | ⟨l, t, deps, hreq, hl, hs⟩ |
      ⟨l, t, tgt, deps, hreq, hl, hrest⟩
    · exact ⟨0, Except.ok st, satisfy_requests_finished hs 0⟩
    · exact ⟨0, Except.error msg, satisfy_requests_failed hs 0⟩
    · subst hreq
      have hlen2 : l.length ≤ m := by
        simp only [List.length_append, List.length_singleton] at hlen
        omega
      obtain ⟨fuel, r, hrun⟩ := ih l hlen2
      exact ⟨fuel + 1, r, by rw [satisfy_requests_more_succ hs fuel]; exact hrun⟩
    · obtain ⟨fuel, r, hrun⟩ := hsmall (Store.setState st t PodState.IsPod) (l ++ deps)
        (alias_free_setState hA) (safe_count_setState_lt hl)
      exact ⟨fuel + 1, r, by rw [satisfy_requests_more_succ hs fuel]; exact hrun⟩
    · exfalso
      simpa [PodState.is_alias_state] using alias_free_lookup hA hl

/-- Termination of `satisfy_requests` over alias-free stores, by induction on
a bound for the `SafeToBePod` count. -/
theorem term_main : ∀ n (st : Store) (reqs : List TypeName), alias_free st →
    safe_count st ≤ n →
    ∃ fuel r, ByValueChecker.satisfy_requests fuel st reqs = some r := by
  intro n
  induction n with
  | zero =>
    intro st reqs hA hc
    refine term_inner st hA ?_ reqs.length reqs le_rfl
    intro st2 reqs2 hA2 hlt
    exact absurd hlt (by omega)
  | succ n ih =>
    intro st reqs hA hc
    refine term_inner st hA ?_ reqs.length reqs le_rfl
    intro st2 reqs2 hA2 hlt
    exact ih st2 reqs2 hA2 (by omega)

/-- Claim C7 (amended to alias-free stores): over a finite store with no
`IsAlias` record, `satisfy_requests` terminates — some finite fuel makes it
return `Ok` or an error — for every finite request list.  (With an `IsAlias`
record whose target never acquires a record the loop runs forever; see the
counterexample.) -/
theorem c7_terminates_alias_free (st : Store) (reqs : List TypeName)
    (hA : alias_free st) :
    ∃ fuel r, ByValueChecker.satisfy_requests fuel st reqs = some r :=
  term_main (safe_count st) st reqs hA le_rfl

/-- Witness for C7 at a concrete alias-free store. -/
theorem c7_terminates_alias_free_witness :
    alias_free [(tA, ⟨PodState.SafeToBePod, [tB]⟩), (tB, ⟨PodState.SafeToBePod, []⟩)] ∧
    ∃ fuel r, ByValueChecker.satisfy_requests fuel
      [(tA, ⟨PodState.SafeToBePod, [tB]⟩), (tB, ⟨PodState.SafeToBePod, []⟩)] [tA] =
        some r :=
  ⟨by decide,
   c7_terminates_alias_free
     [(tA, ⟨PodState.SafeToBePod, [tB]⟩), (tB, ⟨PodState.SafeToBePod, []⟩)] [tA]
     (by decide)⟩

/-- The field scan skips over a field that is recorded and not unsafe. -/
theorem field_scan_skip (st : Store) (T g : TypeName) (tail : List TypeName)
    (hg : problematic_field st g = false) :
    ByValueChecker.field_scan st T (g :: tail) = ByValueChecker.field_scan st T tail := by
  conv_lhs => unfold ByValueChecker.field_scan
  unfold problematic_field at hg
  cases hl : Store.lookup st g with
  | none => rw [hl] at hg; simp at hg
  | some d =>
    rw [hl] at hg
    obtain ⟨s, deps⟩ := d
    cases s with
    | UnsafeToBePod r => simp at hg
    | SafeToBePod => rfl
    | IsPod => rfl
    | IsAlias tgt => rfl

/-- A scan over fields that are all recorded and not unsafe is clean. -/
theorem field_scan_all_ok (st : Store) (T : TypeName) (fl : List TypeName)
    (h : ∀ f ∈ fl, problematic_field st f = false) :
    ByValueChecker.field_scan st T fl = PodState.SafeToBePod := by
  induction fl with
  | nil => rfl
  | cons f rest ih =>
    rw [field_scan_skip st T f rest (h f (List.mem_cons_self f rest))]
    exact ih (fun g hg => h g (List.mem_cons_of_mem f hg))

/-- The scan stops at the first problematic field; when it is absent from the
store the verdict names it as not known. -/
theorem field_scan_first_missing (st : Store) (T : TypeName) :
    ∀ (l1 : List TypeName) (f : TypeName) (l2 : List TypeName),
      (∀ g ∈ l1, problematic_field st g = false) → Store.lookup st f = none →
      ByValueChecker.field_scan st T (l1 ++ f :: l2) =
        PodState.UnsafeToBePod (msg_not_known T f) := by
  intro l1
  induction l1 with
  | nil =>
    intro f l2 _ hn
    rw [List.nil_append]
    unfold ByValueChecker.field_scan
    rw [hn]
  | cons g rest ih =>
    intro f l2 h hn
    rw [List.cons_append,
      field_scan_skip st T g _ (h g (List.mem_cons_self g rest))]
    exact ih f l2 (fun x hx => h x (List.mem_cons_of_mem g hx)) hn

/-- The scan stops at the first problematic field; when it is recorded unsafe
the verdict nests its reason. -/
theorem field_scan_first_unsafe (st : Store) (T : TypeName) :
    ∀ (l1 : List TypeName) (f : TypeName) (l2 : List TypeName) (r : String)
      (deps : List TypeName),
      (∀ g ∈ l1, problematic_field st g = false) →
      Store.lookup st f = some ⟨PodState.UnsafeToBePod r, deps⟩ →
      ByValueChecker.field_scan st T (l1 ++ f :: l2) =
        PodState.UnsafeToBePod (msg_not_safe T f r) := by
  intro l1
  induction l1 with
  | nil =>
    intro f l2 r deps _ hs
    rw [List.nil_append]
    unfold ByValueChecker.field_scan
    rw [hs]
  | cons g rest ih =>
    intro f l2 r deps h hs
    rw [List.cons_append,
      field_scan_skip st T g _ (h g (List.mem_cons_self g rest))]
    exact ih f l2 r deps (fun x hx => h x (List.mem_cons_of_mem g hx)) hs

/-- The record `ingest_struct` writes under the struct's identifier. -/
theorem ingest_struct_lookup_self (st : Store) (s : ItemStruct) (ns : Namespace) :
    Store.lookup (ByValueChecker.ingest_struct st s ns) (TypeName.new ns s.ident) =
      some ⟨(if ByValueChecker.has_vtable s then
              PodState.UnsafeToBePod (msg_virtual (TypeName.new ns s.ident))
             else ByValueChecker.field_scan st (TypeName.new ns s.ident)
               (ByValueChecker.get_field_types s)),
            ByValueChecker.get_field_types s⟩ := by
  simp only [ByValueChecker.ingest_struct]
  exact Store.lookup_insert_self _ _ _

/-- `ingest_struct` writes exactly one record: every other key is unchanged. -/
theorem ingest_struct_lookup_ne (st : Store) (s : ItemStruct) (ns : Namespace)
    (u : TypeName) (h : u ≠ TypeName.new ns s.ident) :
    Store.lookup (ByValueChecker.ingest_struct st s ns) u = Store.lookup st u := by
  simp only [ByValueChecker.ingest_struct]
  exact Store.lookup_insert_ne _ _ _ _ h

/-- Claim C1 (amended): ingesting a struct never fails and records exactly one
verdict under the struct's identifier, with `dependent_structs` always the
full path-typed field list; the verdict is the virtual-functions `Unsafe`
whenever the struct has virtual dispatch (overriding any field-derived
verdict, unsafe ones included), and otherwise is decided by the first
problematic field in field order — absent gives the not-known message, unsafe
gives the nested causal chain — with `SafeToBePod` when no field is
problematic. -/
theorem c1_ingest_struct_verdict (st : Store) (s : ItemStruct) (ns : Namespace) :
    (∀ u, u ≠ TypeName.new ns s.ident →
      Store.lookup (ByValueChecker.ingest_struct st s ns) u = Store.lookup st u) ∧
    (∃ v, Store.lookup (ByValueChecker.ingest_struct st s ns) (TypeName.new ns s.ident) =
        some ⟨v, ByValueChecker.get_field_types s⟩ ∧
      (ByValueChecker.has_vtable s = true →
        v = PodState.UnsafeToBePod (msg_virtual (TypeName.new ns s.ident))) ∧
      (ByValueChecker.has_vtable s = false →
        ((∀ f ∈ ByValueChecker.get_field_types s, problematic_field st f = false) →
          v = PodState.SafeToBePod) ∧
        (∀ l1 f l2, ByValueChecker.get_field_types s = l1 ++ f :: l2 →
          (∀ g ∈ l1, problematic_field st g = false) →
          (Store.lookup st f = none →
            v = PodState.UnsafeToBePod (msg_not_known (TypeName.new ns s.ident) f)) ∧
          (∀ r deps, Store.lookup st f = some ⟨PodState.UnsafeToBePod r, deps⟩ →
            v = PodState.UnsafeToBePod
              (msg_not_safe (TypeName.new ns s.ident) f r))))) := by
  refine ⟨fun u hu => ingest_struct_lookup_ne st s ns u hu,
    _, ingest_struct_lookup_self st s ns, ?_, ?_⟩
  · intro hv
    simp [hv]
  · intro hv
    constructor
    · intro hok
      simp only [hv, Bool.false_eq_true, if_false]
      exact field_scan_all_ok st _ _ hok
    · intro l1 f l2 heq hok
      constructor
      · intro hn
        simp only [hv, Bool.false_eq_true, if_false, heq]
        exact field_scan_first_missing st _ l1 f l2 hok hn
      · intro r deps hs
        simp only [hv, Bool.false_eq_true, if_false, heq]
        exact field_scan_first_unsafe st _ l1 f l2 r deps hok hs

/-- Witness for C1 at a concrete struct whose only field type is absent. -/
theorem c1_ingest_struct_verdict_witness :
    ∃ v, Store.lookup
        (ByValueChecker.ingest_struct [] ⟨"T", [⟨some "x", RsType.Path tC⟩]⟩ ⟨[]⟩)
        (TypeName.new ⟨[]⟩ "T") = some ⟨v, [tC]⟩ ∧
      v = PodState.UnsafeToBePod (msg_not_known (TypeName.new ⟨[]⟩ "T") tC) := by
  obtain ⟨h1, v, hl, hvt, hnv⟩ :=
    c1_ingest_struct_verdict [] ⟨"T", [⟨some "x", RsType.Path tC⟩]⟩ ⟨[]⟩
  exact ⟨v, hl, ((hnv rfl).2 [] tC [] rfl (by simp)).1 rfl⟩

/-- Counterexample to C1 as stated, in two scenarios.  First: with fields
`[tB, tC]` where `tB` is recorded unsafe and `tC` is absent, the claim
demands the not-known verdict naming `tC`, but the code records the nested
chain naming `tB`.  Second: with the single absent field type `tC` and
virtual dispatch, the claim demands the not-known verdict naming `tC`, but
the code records the virtual-functions verdict. -/
theorem c1_counterexample :
    (Store.lookup
        (ByValueChecker.ingest_struct [(tB, ⟨PodState.UnsafeToBePod "r", []⟩)]
          ⟨"T", [⟨some "x", RsType.Path tB⟩, ⟨some "y", RsType.Path tC⟩]⟩ ⟨[]⟩)
        (TypeName.new ⟨[]⟩ "T") =
      some ⟨PodState.UnsafeToBePod (msg_not_safe (TypeName.new ⟨[]⟩ "T") tB "r"),
        [tB, tC]⟩ ∧
      msg_not_safe (TypeName.new ⟨[]⟩ "T") tB "r" ≠
        msg_not_known (TypeName.new ⟨[]⟩ "T") tC) ∧
    (Store.lookup
        (ByValueChecker.ingest_struct []
          ⟨"T", [⟨some "y", RsType.Path tC⟩, ⟨some "vtable_", RsType.Ptr⟩]⟩ ⟨[]⟩)
        (TypeName.new ⟨[]⟩ "T") =
      some ⟨PodState.UnsafeToBePod (msg_virtual (TypeName.new ⟨[]⟩ "T")), [tC]⟩ ∧
      msg_virtual (TypeName.new ⟨[]⟩ "T") ≠
        msg_not_known (TypeName.new ⟨[]⟩ "T") tC) :=
  ⟨⟨rfl, by decide⟩, ⟨rfl, by decide⟩⟩

/-- `get_field_types` collected as a `filterMap`: exactly the path-typed
fields project to their type names, everything else is dropped. -/
theorem get_field_types_eq (s : ItemStruct) :
    ByValueChecker.get_field_types s =
      s.fields.filterMap
        (fun f => match f.ty with | RsType.Path tn => some tn | _ => none) := by
  have aux : ∀ (l : List Field) (acc : List TypeName),
      l.foldl (fun results f =>
        match f.ty with
        | RsType.Path p => results ++ [p]
        | _ => results) acc =
      acc ++ l.filterMap
        (fun f => match f.ty with | RsType.Path tn => some tn | _ => none) := by
    intro l
    induction l with
    | nil => intro acc; simp
    | cons f rest ih =>
      intro acc
      cases hf : f.ty <;> simp [List.filterMap_cons, hf, ih]
  exact aux s.fields []

/-- Claim C10 (amended): only path-shaped field types contribute to the field
scan and the dependency list; a struct whose fields are all of other shapes
and which has no field named `vtable_` is recorded `SafeToBePod` with empty
dependencies, and one confirmation step confirms it. -/
theorem c10_non_path_fields (st : Store) (s : ItemStruct) (ns : Namespace) :
    (ByValueChecker.get_field_types s =
      s.fields.filterMap
        (fun f => match f.ty with | RsType.Path tn => some tn | _ => none)) ∧
    ((∀ f ∈ s.fields, f.ty.is_path = false) → ByValueChecker.has_vtable s = false →
      Store.lookup (ByValueChecker.ingest_struct st s ns) (TypeName.new ns s.ident) =
        some ⟨PodState.SafeToBePod, []⟩ ∧
      ByValueChecker.satisfy_requests 1 (ByValueChecker.ingest_struct st s ns)
        [TypeName.new ns s.ident] =
        some (Except.ok (Store.setState (ByValueChecker.ingest_struct st s ns)
          (TypeName.new ns s.ident) PodState.IsPod)) ∧
      ByValueChecker.is_pod (Store.setState (ByValueChecker.ingest_struct st s ns)
        (TypeName.new ns s.ident) PodState.IsPod) (TypeName.new ns s.ident) = true) := by
  refine ⟨get_field_types_eq s, ?_⟩
  intro hnp hnv
  have hfl : ByValueChecker.get_field_types s = [] := by
    rw [get_field_types_eq s]
    rw [List.filterMap_eq_nil_iff]
    intro f hf
    have := hnp f hf
    cases hft : f.ty <;> simp_all [RsType.is_path]
  have hself := ingest_struct_lookup_self st s ns
  rw [hnv, hfl] at hself
  simp only [Bool.false_eq_true, if_false, ByValueChecker.field_scan] at hself
  refine ⟨hself, ?_, is_pod_setState_self hself⟩
  have hs := satisfy_step_concat (ByValueChecker.ingest_struct st s ns) []
    (TypeName.new ns s.ident)
  rw [hself] at hs
  simp only [List.nil_append] at hs
  rw [satisfy_requests_more_succ hs 0,
    satisfy_requests_finished (satisfy_step_nil _) 0]

/-- Witness for C10 at a concrete struct whose only field is an array. -/
theorem c10_non_path_fields_witness :
    Store.lookup (ByValueChecker.ingest_struct [] ⟨"T", [⟨some "x", RsType.Array⟩]⟩ ⟨[]⟩)
      (TypeName.new ⟨[]⟩ "T") = some ⟨PodState.SafeToBePod, []⟩ ∧
    ByValueChecker.satisfy_requests 1
      (ByValueChecker.ingest_struct [] ⟨"T", [⟨some "x", RsType.Array⟩]⟩ ⟨[]⟩)
      [TypeName.new ⟨[]⟩ "T"] =
      some (Except.ok (Store.setState
        (ByValueChecker.ingest_struct [] ⟨"T", [⟨some "x", RsType.Array⟩]⟩ ⟨[]⟩)
        (TypeName.new ⟨[]⟩ "T") PodState.IsPod)) ∧
    ByValueChecker.is_pod (Store.setState
      (ByValueChecker.ingest_struct [] ⟨"T", [⟨some "x", RsType.Array⟩]⟩ ⟨[]⟩)
      (TypeName.new ⟨[]⟩ "T") PodState.IsPod) (TypeName.new ⟨[]⟩ "T") = true :=
  (c10_non_path_fields [] ⟨"T", [⟨some "x", RsType.Array⟩]⟩ ⟨[]⟩).2
    (by decide) (by decide)

/-- Counterexample to C10 as stated: a struct whose only field has a non-path
shape but is named `vtable_` is recorded `UnsafeToBePod` for virtual
functions, not `SafeToBePod`. -/
theorem c10_counterexample :
    (∀ f ∈ (⟨"T", [⟨some "vtable_", RsType.Ptr⟩]⟩ : ItemStruct).fields,
      f.ty.is_path = false) ∧
    Store.lookup
      (ByValueChecker.ingest_struct [] ⟨"T", [⟨some "vtable_", RsType.Ptr⟩]⟩ ⟨[]⟩)
      (TypeName.new ⟨[]⟩ "T") =
      some ⟨PodState.UnsafeToBePod (msg_virtual (TypeName.new ⟨[]⟩ "T")), []⟩ ∧
    PodState.UnsafeToBePod (msg_virtual (TypeName.new ⟨[]⟩ "T")) ≠
      PodState.SafeToBePod :=
  ⟨by decide, rfl, by decide⟩

/-- Seeding does not touch identifiers outside the seed list. -/
theorem seed_foldl_not_mem :
    ∀ (seed : List (TypeName × Bool)) (st : Store) (t : TypeName),
      t ∉ seed.map Prod.fst →
      Store.lookup (seed.foldl
        (fun st2 p => Store.insert st2 p.1
          ⟨if p.2 then PodState.IsPod
            else PodState.UnsafeToBePod (msg_not_pod_safe p.1), []⟩) st) t =
      Store.lookup st t := by
  intro seed
  induction seed with
  | nil => intro st t _; rfl
  | cons p rest ih =>
    intro st t h
    simp only [List.map_cons, List.mem_cons, not_or] at h
    obtain ⟨hne, hnm⟩ := h
    simp only [List.foldl_cons]
    rw [ih _ t hnm]
    exact Store.lookup_insert_ne st p.1 _ t hne

/-- With pairwise-distinct seed identifiers, each pair's record is found. -/
theorem seed_foldl_mem :
    ∀ (seed : List (TypeName × Bool)) (st : Store) (t : TypeName) (b : Bool),
      (seed.map Prod.fst).Nodup → (t, b) ∈ seed →
      Store.lookup (seed.foldl
        (fun st2 p => Store.insert st2 p.1
          ⟨if p.2 then PodState.IsPod
            else PodState.UnsafeToBePod (msg_not_pod_safe p.1), []⟩) st) t =
      some ⟨if b then PodState.IsPod
            else PodState.UnsafeToBePod (msg_not_pod_safe t), []⟩ := by
  intro seed
  induction seed with
  | nil => intro st t b _ hmem; cases hmem
  | cons p rest ih =>
    intro st t b hnd hmem
    simp only [List.map_cons, List.nodup_cons] at hnd
    obtain ⟨hp, hnd2⟩ := hnd
    simp only [List.foldl_cons]
    rcases List.mem_cons.mp hmem with heq | hmem2
    · have hpt : p = (t, b) := heq.symm
      subst hpt
      rw [seed_foldl_not_mem rest _ t hp]
      exact Store.lookup_insert_self st t _
    · exact ih _ t b hnd2 hmem2

/-- Every record produced by seeding has empty dependencies. -/
theorem seed_deps_nil :
    ∀ (seed : List (TypeName × Bool)) (st : Store),
      (∀ u d, Store.lookup st u = some d → d.dependent_structs = []) →
      ∀ u d, Store.lookup (seed.foldl
        (fun st2 p => Store.insert st2 p.1
          ⟨if p.2 then PodState.IsPod
            else PodState.UnsafeToBePod (msg_not_pod_safe p.1), []⟩) st) u = some d →
        d.dependent_structs = [] := by
  intro seed
  induction seed with
  | nil => intro st h; exact h
  | cons p rest ih =>
    intro st h u d
    simp only [List.foldl_cons]
    refine ih _ ?_ u d
    intro u2 d2 hl
    by_cases hu : u2 = p.1
    · subst hu
      rw [Store.lookup_insert_self] at hl
      injection hl with h2
      rw [← h2]
    · rw [Store.lookup_insert_ne _ _ _ _ hu] at hl
      exact h u2 d2 hl

/-- Claim C8: over a seed list with pairwise-distinct identifiers, seeding
makes `is_pod` true immediately for every `(T, true)` entry, records the
not-safe-for-POD `Unsafe` verdict for every `(T, false)` entry, and gives
every seeded record empty dependencies; seeding is a total function with no
failure modes. -/
theorem c8_seed (seed : List (TypeName × Bool)) (t : TypeName)
    (hnd : (seed.map Prod.fst).Nodup) :
    ((t, true) ∈ seed → ByValueChecker.is_pod (ByValueChecker.new seed) t = true) ∧
    ((t, false) ∈ seed → Store.lookup (ByValueChecker.new seed) t =
      some ⟨PodState.UnsafeToBePod (msg_not_pod_safe t), []⟩) ∧
    (∀ u d, Store.lookup (ByValueChecker.new seed) u = some d →
      d.dependent_structs = []) := by
  refine ⟨?_, ?_, ?_⟩
  · intro hm
    exact is_pod_of_lookup_IsPod (seed_foldl_mem seed [] t true hnd hm)
  · intro hm
    exact seed_foldl_mem seed [] t false hnd hm
  · refine seed_deps_nil seed [] ?_
    intro u d h
    simp [Store.lookup] at h

/-- Witness for C8 at a concrete two-entry seed list. -/
theorem c8_seed_witness :
    ByValueChecker.is_pod (ByValueChecker.new [(tA, true), (tB, false)]) tA = true ∧
    Store.lookup (ByValueChecker.new [(tA, true), (tB, false)]) tB =
      some ⟨PodState.UnsafeToBePod (msg_not_pod_safe tB), []⟩ :=
  ⟨(c8_seed [(tA, true), (tB, false)] tA (by decide)).1 (by decide),
   (c8_seed [(tA, true), (tB, false)] tB (by decide)).2.1 (by decide)⟩

/-- `ingest_api` leaves every key other than its own untouched. -/
theorem ingest_api_lookup_ne (subst : TypeName → Option TypeName) (st : Store)
    (a : Api) (u : TypeName) (h : api_key a ≠ some u) :
    Store.lookup (ByValueChecker.ingest_api subst st a) u = Store.lookup st u := by
  obtain ⟨ans, aid, detail⟩ := a
  cases detail with
  | Typedef payload =>
    have hne : u ≠ Api.typename ⟨ans, aid, ApiDetail.Typedef payload⟩ :=
      fun he => h (by rw [he]; rfl)
    simp only [ByValueChecker.ingest_api]
    cases typedef_target subst payload with
    | some tgt => exact Store.lookup_insert_ne _ _ _ _ hne
    | none =>
      simp only [ByValueChecker.ingest_nonpod_type]
      exact Store.lookup_insert_ne _ _ _ _ hne
  | TypeItem fwd item =>
    cases item with
    | none => rfl
    | some it =>
      cases it with
      | Struct s =>
        have hne : u ≠ TypeName.new ans s.ident := fun he => h (by rw [he]; rfl)
        exact ingest_struct_lookup_ne st s ans u hne
      | Enum =>
        have hne : u ≠ Api.typename ⟨ans, aid, ApiDetail.TypeItem fwd (some Item.Enum)⟩ :=
          fun he => h (by rw [he]; rfl)
        exact Store.lookup_insert_ne _ _ _ _ hne
      | OtherItem => rfl
  | OpaqueTypedef =>
    have hne : u ≠ Api.typename ⟨ans, aid, ApiDetail.OpaqueTypedef⟩ :=
      fun he => h (by rw [he]; rfl)
    simp only [ByValueChecker.ingest_api, ByValueChecker.ingest_nonpod_type]
    exact Store.lookup_insert_ne _ _ _ _ hne
  | ConcreteType => rfl
  | StringConstructor => rfl
  | FunctionItem => rfl
  | ConstItem => rfl
  | CTypeItem tn => rfl

/-- A fold of `ingest_api` over apis none of which writes key `u` leaves the
lookup of `u` unchanged. -/
theorem ingest_apis_lookup_not_key (subst : TypeName → Option TypeName) :
    ∀ (apis : List Api) (st : Store) (u : TypeName),
      (∀ a ∈ apis, api_key a ≠ some u) →
      Store.lookup (apis.foldl (ByValueChecker.ingest_api subst) st) u =
        Store.lookup st u := by
  intro apis
  induction apis with
  | nil => intro st u _; rfl
  | cons a rest ih =>
    intro st u h
    simp only [List.foldl_cons]
    rw [ih _ u (fun x hx => h x (List.mem_cons_of_mem a hx))]
    exact ingest_api_lookup_ne subst st a u (h a (List.mem_cons_self a rest))

/-- The blocklist pre-pass does not touch identifiers outside the blocklist. -/
theorem apply_blocklist_not_mem :
    ∀ (bl : List TypeName) (st : Store) (t : TypeName), t ∉ bl →
      Store.lookup (apply_blocklist st bl) t = Store.lookup st t := by
  intro bl
  induction bl with
  | nil => intro st t _; rfl
  | cons b rest ih =>
    intro st t h
    simp only [List.mem_cons, not_or] at h
    obtain ⟨hne, hnm⟩ := h
    have hstep : apply_blocklist st (b :: rest) =
        apply_blocklist (Store.insert st b
          ⟨PodState.UnsafeToBePod (msg_blocklist b), []⟩) rest := rfl
    rw [hstep, ih _ t hnm]
    exact Store.lookup_insert_ne st b _ t hne

/-- The blocklist pre-pass records the blocklist `Unsafe` verdict for every
blocklisted identifier. -/
theorem apply_blocklist_mem :
    ∀ (bl : List TypeName) (st : Store) (t : TypeName), t ∈ bl →
      Store.lookup (apply_blocklist st bl) t =
        some ⟨PodState.UnsafeToBePod (msg_blocklist t), []⟩ := by
  intro bl
  induction bl with
  | nil => intro st t h; cases h
  | cons b rest ih =>
    intro st t h
    have hstep : apply_blocklist st (b :: rest) =
        apply_blocklist (Store.insert st b
          ⟨PodState.UnsafeToBePod (msg_blocklist b), []⟩) rest := rfl
    rw [hstep]
    by_cases hm : t ∈ rest
    · exact ih _ t hm
    · have hb : t = b := by
        rcases List.mem_cons.mp h with h1 | h1
        · exact h1
        · exact absurd h1 hm
      subst hb
      rw [apply_blocklist_not_mem rest _ t hm]
      exact Store.lookup_insert_self _ _ _

/-- Claim C5: the blocklist is applied before any declaration record, so a
blocklisted identifier not re-declared later keeps the blocklist `Unsafe`
record and `satisfy_requests` on it fails with the blocklist reason; a struct
or enum declaration ingested afterward for the same identifier overwrites the
blocklist record, and its own verdict stands. -/
theorem c5_blocklist (seed : List (TypeName × Bool))
    (subst : TypeName → Option TypeName) (bl : List TypeName)
    (apis apis1 apis2 : List Api) (t : TypeName) (fuel : Nat) (l : List TypeName)
    (s : ItemStruct) (ns : Namespace) (aid : String) (fwd : Bool) :
    (t ∈ bl → (∀ a ∈ apis, api_key a ≠ some t) →
      ByValueChecker.satisfy_requests fuel
        (ByValueChecker.new_from_apis_store seed subst bl apis) (l ++ [t]) =
        some (Except.error (msg_blocklist t))) ∧
    ((∀ a ∈ apis2, api_key a ≠ some (TypeName.new ns s.ident)) →
      Store.lookup (ByValueChecker.new_from_apis_store seed subst bl
          (apis1 ++ ⟨ns, aid, ApiDetail.TypeItem fwd (some (Item.Struct s))⟩ :: apis2))
        (TypeName.new ns s.ident) =
      Store.lookup (ByValueChecker.ingest_struct
          (apis1.foldl (ByValueChecker.ingest_api subst)
            (apply_blocklist (ByValueChecker.new seed) bl)) s ns)
        (TypeName.new ns s.ident)) ∧
    ((∀ a ∈ apis2, api_key a ≠ some (TypeName.new ns aid)) →
      Store.lookup (ByValueChecker.new_from_apis_store seed subst bl
          (apis1 ++ ⟨ns, aid, ApiDetail.TypeItem fwd (some Item.Enum)⟩ :: apis2))
        (TypeName.new ns aid) = some ⟨PodState.IsPod, []⟩) := by
  refine ⟨?_, ?_, ?_⟩
  · intro hbl hnone
    have hlook : Store.lookup (ByValueChecker.new_from_apis_store seed subst bl apis) t =
        some ⟨PodState.UnsafeToBePod (msg_blocklist t), []⟩ := by
      unfold ByValueChecker.new_from_apis_store
      rw [ingest_apis_lookup_not_key subst apis _ t hnone]
      exact apply_blocklist_mem bl _ t hbl
    have hs : ByValueChecker.satisfy_step
        (ByValueChecker.new_from_apis_store seed subst bl apis) (l ++ [t]) =
        StepOutcome.Failed (msg_blocklist t) := by
      rw [satisfy_step_concat, hlook]
    exact satisfy_requests_failed hs fuel
  · intro h2
    unfold ByValueChecker.new_from_apis_store
    rw [List.foldl_append, List.foldl_cons]
    rw [ingest_apis_lookup_not_key subst apis2 _ _ h2]
    rfl
  · intro h2
    unfold ByValueChecker.new_from_apis_store
    rw [List.foldl_append, List.foldl_cons]
    rw [ingest_apis_lookup_not_key subst apis2 _ _ h2]
    exact Store.lookup_insert_self _ _ _

/-- Witness for C5 at concrete inputs: a blocklisted `tB` with no later
declaration fails with the blocklist reason, while a blocklisted identifier
re-declared as an enum afterward ends up `IsPod`. -/
theorem c5_blocklist_witness :
    ByValueChecker.satisfy_requests 0
      (ByValueChecker.new_from_apis_store [] (fun _ => none) [tB] []) ([] ++ [tB]) =
      some (Except.error (msg_blocklist tB)) ∧
    Store.lookup (ByValueChecker.new_from_apis_store [] (fun _ => none)
        [TypeName.new ⟨[]⟩ "E"]
        ([] ++ ⟨⟨[]⟩, "E", ApiDetail.TypeItem false (some Item.Enum)⟩ :: []))
      (TypeName.new ⟨[]⟩ "E") = some ⟨PodState.IsPod, []⟩ :=
  ⟨(c5_blocklist [] (fun _ => none) [tB] [] [] [] tB 0 [] ⟨"T", []⟩ ⟨[]⟩ "T"
      false).1 (by decide) (by simp),
   (c5_blocklist [] (fun _ => none) [TypeName.new ⟨[]⟩ "E"] [] [] [] tB 0 []
      ⟨"T", []⟩ ⟨[]⟩ "E" false).2.2 (by simp)⟩

end Autocxx
